import Mathlib

/-!
Verification of the signal evaluation engine and position ledger of
scanner.py (V59.3 Taiwan stock scanner).  Prices, volumes and derived
indicator values are modelled as exact rationals; a pandas DataFrame of
daily bars is a list of Bar records in date order.  Pandas produces NaN
for a rolling mean whose window exceeds the series length, and the only
way the scanner observes such a NaN is through math.isnan tests; those
tests are therefore modelled as the equivalent length tests.
-/

set_option maxRecDepth 40000

/-- Banker rounding of a rational to the nearest integer, ties to even,
modelling the Python built-in round applied to an exact value. -/
def roundHalfEven (q : ℚ) : ℤ :=
  let f : ℤ := ⌊q⌋
  let r : ℚ := q - f
  if r < 1/2 then f
  else if 1/2 < r then f + 1
  else if f % 2 = 0 then f else f + 1

/-- Python round(x, 2). -/
def round2 (q : ℚ) : ℚ := (roundHalfEven (q * 100) : ℚ) / 100

/-- Python round(x, 1). -/
def round1 (q : ℚ) : ℚ := (roundHalfEven (q * 10) : ℚ) / 10

/-- Last n elements of a list, the pandas slice iloc[-n:]. -/
def lastN (n : ℕ) (l : List ℚ) : List ℚ := l.drop (l.length - n)

/-- Element at negative position -k, the pandas iloc[-k]; 0 when out of range. -/
def ilocNeg (l : List ℚ) (k : ℕ) : ℚ := l.getD (l.length - k) 0

/-- Mean of the last n elements: the value of rolling(n).mean() at the last row. -/
def smaLast (n : ℕ) (l : List ℚ) : ℚ := (lastN n l).sum / n

/-- Value of rolling(n).mean() at row -k, the pandas iloc[-k] of the rolling mean:
the mean of the n elements ending at position length - k. -/
def smaAt (n k : ℕ) (l : List ℚ) : ℚ := smaLast n (l.take (l.length + 1 - k))

/-- Running maximum, tail recursive so that large concrete series evaluate in
constant stack; Rat.blt m h decides m < h. -/
def maxFrom (m : ℚ) : List ℚ → ℚ
  | [] => m
  | h :: t => match Rat.blt m h with
    | true => maxFrom h t
    | false => maxFrom m t

/-- Maximum of a series (pandas Series.max); 0 for an empty series, which the
scanner never queries. -/
def maxQ : List ℚ → ℚ
  | [] => 0
  | h :: t => maxFrom h t

/-- Running minimum, tail recursive companion of maxFrom. -/
def minFrom (m : ℚ) : List ℚ → ℚ
  | [] => m
  | h :: t => match Rat.blt h m with
    | true => minFrom h t
    | false => minFrom m t

/-- Minimum of a series (pandas Series.min); 0 for an empty series. -/
def minQ : List ℚ → ℚ
  | [] => 0
  | h :: t => minFrom h t

/-- Running first position of the maximum: bi and bv are the position and value
of the current best, i the position of the head of the remaining list. -/
def argmaxFrom (bi : ℕ) (bv : ℚ) (i : ℕ) : List ℚ → ℕ
  | [] => bi
  | h :: t => match Rat.blt bv h with
    | true => argmaxFrom i h (i + 1) t
    | false => argmaxFrom bi bv (i + 1) t

/-- Position of the first maximum of a series (numpy argmax); 0 for an empty
series. -/
def argmaxFirst : List ℚ → ℕ
  | [] => 0
  | h :: t => argmaxFrom 0 h 1 t

/-- One daily OHLCV bar of a price history DataFrame. -/
structure Bar where
  openP : ℚ
  high : ℚ
  low : ℚ
  close : ℚ
  volume : ℚ
deriving DecidableEq

/-- Column df Close as a list. -/
def closes (df : List Bar) : List ℚ := df.map Bar.close

/-- Column df Open as a list. -/
def opens (df : List Bar) : List ℚ := df.map Bar.openP

/-- Column df High as a list. -/
def highs (df : List Bar) : List ℚ := df.map Bar.high

/-- Column df Low as a list. -/
def lows (df : List Bar) : List ℚ := df.map Bar.low

/-- Column df Volume as a list. -/
def volumes (df : List Bar) : List ℚ := df.map Bar.volume

/-- Match snapshot returned by strategy A (check_strategy_original). -/
structure InfoA where
  tag : String
  price : ℚ
  ma5 : ℚ
  ma10 : ℚ
  ma20 : ℚ
  ma300 : ℚ
deriving DecidableEq

/-- Strategy A, the Pullback evaluator check_strategy_original of scanner.py,
lines 122 to 205, translated branch for branch.  The math.isnan tests on
curr_ma300 and curr_ma240 hold exactly when the history is shorter than the
window, so they appear here as length tests. -/
def check_strategy_original (df : List Bar) : Bool × Option InfoA :=
  if df.length < 310 then (false, none) else
  let close := closes df
  let openC := opens df
  let highC := highs df
  let volume := volumes df
  let lowC := lows df
  let curr_c := ilocNeg close 1
  let curr_o := ilocNeg openC 1
  let curr_h := ilocNeg highC 1
  let curr_v := ilocNeg volume 1
  let curr_l := ilocNeg lowC 1
  let prev_c := ilocNeg close 2
  let prev_l := ilocNeg lowC 2
  let curr_ma5 := smaLast 5 close
  let curr_ma10 := smaLast 10 close
  let curr_ma12 := smaLast 12 close
  let curr_ma20 := smaLast 20 close
  let curr_ma60 := smaLast 60 close
  let curr_ma120 := smaLast 120 close
  let curr_ma240 := smaLast 240 close
  let curr_ma300 := smaLast 300 close
  let curr_vol_ma5 := smaLast 5 volume
  let upper_shadow := curr_h - max curr_c curr_o
  let lower_shadow := min curr_c curr_o - curr_l
  if upper_shadow / curr_c > 0.002 ∧ lower_shadow / curr_c < 0.001 then (false, none) else
  if prev_l > 0 ∧ (prev_l - curr_l) / prev_l > 0.015 then (false, none) else
  let deduction_20 := ilocNeg close 20
  if curr_c < deduction_20 then (false, none) else
  if df.length < 300 then (false, none) else
  if curr_c < curr_ma300 then (false, none) else
  if curr_vol_ma5 < 1000000 then (false, none) else
  if curr_c ≤ curr_ma120 ∨ curr_c ≤ curr_ma60 then (false, none) else
  if df.length < 240 then (false, none) else
  if ¬ (curr_ma10 > curr_ma60 ∧ curr_ma60 > curr_ma120 ∧ curr_ma120 > curr_ma240) then
    (false, none) else
  let bias_ma60 := (curr_c - curr_ma60) / curr_ma60
  if bias_ma60 ≥ 0.25 then (false, none) else
  let maxMas := max curr_ma5 (max curr_ma10 curr_ma20)
  let minMas := min curr_ma5 (min curr_ma10 curr_ma20)
  let ma_divergence := (maxMas - minMas) / minMas
  if ma_divergence ≥ 0.08 then (false, none) else
  if curr_v ≥ curr_vol_ma5 then (false, none) else
  if curr_c ≤ curr_ma12 then (false, none) else
  let daily_range_pct := (curr_h - curr_l) / prev_c
  if daily_range_pct ≥ 0.045 then (false, none) else
  let entity_pct := |curr_c - curr_o| / prev_c
  if entity_pct ≥ 0.025 then (false, none) else
  (true, some { tag := "拉回佈局", price := round2 curr_c, ma5 := round2 curr_ma5,
                ma10 := round2 curr_ma10, ma20 := round2 curr_ma20,
                ma300 := round2 curr_ma300 })

/-- Match snapshot returned by strategy B (check_strategy_vcp_pro). -/
structure InfoB where
  tag : String
  price : ℚ
  ma5 : ℚ
  ma10 : ℚ
  ma20 : ℚ
  ma150 : ℚ
  ma200 : ℚ
  ma300 : ℚ
  bb_width : ℚ
deriving DecidableEq

/-- Drawdown from peak of a window of closes, calc_retrace of scanner.py,
lines 287 to 290: (peak - trough) / peak when the peak is positive, else 1. -/
def calc_retrace (series : List ℚ) : ℚ :=
  let peak := maxQ series
  let trough := minQ series
  if peak > 0 then (peak - trough) / peak else 1

/-- Strategy B, the Strict VCP evaluator check_strategy_vcp_pro of scanner.py,
lines 207 to 311, translated branch for branch.  The rolling 20 row standard
deviation at the last row is irrational in general, so it is taken as the
parameter stdFn applied to the last 20 closes; every theorem below holds for
every such parameter.  The body is wrapped in a Python try block whose only
possible escapes are float conversions of in range rows, so the translation is
the plain branch structure. -/
def check_strategy_vcp_pro (stdFn : List ℚ → ℚ) (df : List Bar) : Bool × Option InfoB :=
  let close := closes df
  let openC := opens df
  let highC := highs df
  let lowC := lows df
  let volume := volumes df
  if close.length < 310 then (false, none) else
  let curr_ma10 := smaLast 10 close
  let curr_ma20 := smaLast 20 close
  let curr_ma150 := smaLast 150 close
  let curr_ma200 := smaLast 200 close
  let curr_ma60 := smaLast 60 close
  let curr_ma300 := smaLast 300 close
  let curr_ma120 := smaLast 120 close
  let curr_ma240 := smaLast 240 close
  let std20 := stdFn (lastN 20 close)
  let bb_upper := curr_ma20 + std20 * 2
  let bb_lower := curr_ma20 - std20 * 2
  let curr_bb_width := (bb_upper - bb_lower) / curr_ma20
  let curr_c := ilocNeg close 1
  let curr_o := ilocNeg openC 1
  let curr_h := ilocNeg highC 1
  let curr_l := ilocNeg lowC 1
  let curr_v := ilocNeg volume 1
  let prev_l := ilocNeg lowC 2
  let upper_shadow := curr_h - max curr_c curr_o
  let lower_shadow := min curr_c curr_o - curr_l
  if upper_shadow / curr_c > 0.002 ∧ lower_shadow / curr_c < 0.001 then (false, none) else
  if prev_l > 0 ∧ (prev_l - curr_l) / prev_l > 0.015 then (false, none) else
  let deduction_20 := ilocNeg close 20
  if curr_c < deduction_20 then (false, none) else
  if df.length < 300 ∨ curr_c < curr_ma300 then (false, none) else
  if df.length < 60 ∨ curr_c ≤ curr_ma60 then (false, none) else
  if df.length < 120 ∨ df.length < 240 then (false, none) else
  if ¬ (curr_ma60 > curr_ma120 ∧ curr_ma120 > curr_ma240) then (false, none) else
  if curr_v < 1000000 then (false, none) else
  if curr_c < curr_ma200 then (false, none) else
  if curr_ma200 ≤ smaAt 200 20 close then (false, none) else
  if curr_c < curr_ma150 then (false, none) else
  let high_52w := maxQ (lastN 250 close)
  let low_52w := minQ (lastN 250 close)
  if curr_c < low_52w * 1.3 then (false, none) else
  if curr_c < high_52w * 0.75 then (false, none) else
  if curr_bb_width > 0.15 then (false, none) else
  if curr_c < curr_ma20 * 0.98 then (false, none) else
  let vol_ma5 := smaLast 5 volume
  let vol_ma20 := smaLast 20 volume
  if vol_ma5 > vol_ma20 then (false, none) else
  if vol_ma5 < 300000 then (false, none) else
  let r1 := calc_retrace (lastN 60 close)
  let r2 := calc_retrace (lastN 20 close)
  let r3 := calc_retrace (lastN 10 close)
  if ¬ (r1 > r2 ∧ r2 > r3) then (false, none) else
  (true, some { tag := "Strict-VCP", price := round2 curr_c, ma5 := round2 (smaLast 5 close),
                ma10 := round2 curr_ma10, ma20 := round2 curr_ma20,
                ma150 := round2 curr_ma150, ma200 := round2 curr_ma200,
                ma300 := round2 curr_ma300, bb_width := round1 (curr_bb_width * 100) })

/-- Match snapshot returned by strategy C (check_strategy_n_shape). -/
structure InfoC where
  tag : String
  price : ℚ
  ma5 : ℚ
  ma10 : ℚ
  ma20 : ℚ
  ma300 : ℚ
deriving DecidableEq

/-- Strategy C, the N shape evaluator check_strategy_n_shape of scanner.py,
lines 313 to 418, translated branch for branch.  The slice high.iloc[-30:-3]
keeps rows length - 30 up to length - 4, and low.iloc[peak_abs_pos:-1] keeps
the rows from the peak up to but excluding the last row; the rolling 300 mean
at the last row is NaN below 300 rows, which the output clause of the source
maps to 0.0, modelled by the same length test. -/
def check_strategy_n_shape (df : List Bar) : Bool × Option InfoC :=
  if df.length < 250 then (false, none) else
  let close := closes df
  let highC := highs df
  let lowC := lows df
  let volume := volumes df
  let curr_c := ilocNeg close 1
  let curr_v := ilocNeg volume 1
  let prev_v := ilocNeg volume 2
  let curr_ma5 := smaLast 5 close
  let curr_ma10 := smaLast 10 close
  let curr_ma20 := smaLast 20 close
  let curr_ma60 := smaLast 60 close
  let curr_ma120 := smaLast 120 close
  let curr_ma240 := smaLast 240 close
  let curr_ma300 := smaLast 300 close
  if df.length < 240 ∨ curr_c < curr_ma240 then (false, none) else
  if ¬ (curr_ma60 > curr_ma120) then (false, none) else
  let highs_window := (highC.drop (df.length - 30)).take 27
  if highs_window.length = 0 then (false, none) else
  let peak_high := maxQ highs_window
  let peak_pos_in_slice := argmaxFirst highs_window
  let peak_abs_pos := df.length - 30 + peak_pos_in_slice
  let pullback_zone := (lowC.take (lowC.length - 1)).drop peak_abs_pos
  if pullback_zone.length < 2 then (false, none) else
  let pullback_low := minQ pullback_zone
  let historical_high := maxQ highC
  if peak_high < historical_high * 0.97 then (false, none) else
  if pullback_low ≤ 0 then (false, none) else
  if peak_high / pullback_low < 1.08 then (false, none) else
  let near_peak := curr_c ≥ peak_high * 0.91 ∧ curr_c ≤ peak_high * 1.02
  let short_trend_up := curr_c > curr_ma5 ∧ curr_c > curr_ma10
  let ma5_bias := if curr_ma5 > 0 then (curr_c - curr_ma5) / curr_ma5 else 1
  let not_overextended := ma5_bias ≤ 0.025
  let volume_contraction := curr_v ≤ prev_v * 0.5
  let vol_ma5 := smaLast 5 volume
  if vol_ma5 < 800000 then (false, none) else
  if near_peak ∧ short_trend_up ∧ not_overextended ∧ volume_contraction then
    (true, some { tag := "N字形", price := round2 curr_c, ma5 := round2 curr_ma5,
                  ma10 := round2 curr_ma10, ma20 := round2 curr_ma20,
                  ma300 := if df.length < 300 then 0 else round2 curr_ma300 })
  else (false, none)

/-- Helper building a bar whose open equals its close. -/
def mkBar (c h l v : ℚ) : Bar := { openP := c, high := h, low := l, close := c, volume := v }

/-- Flat early bar used to pad concrete histories. -/
def flatBar : Bar := mkBar 100 100 100 1000000

/-- Last 31 bars of the concrete N shape history: a run up to a peak high of
115, a pullback to 103, then a quiet drift back toward the peak; the final bar
closes at 112 on half of the prior volume while its low of 90 undercuts the
prior low of 110 by more than 18 percent. -/
def c7tail : List Bar :=
  [mkBar 102 102 102 1000000, mkBar 104 104 104 1000000, mkBar 106 106 106 1000000,
   mkBar 108 108 108 1000000, mkBar 110 110 110 1000000, mkBar 112 112 112 1000000,
   mkBar 113 115 112 1000000, mkBar 110 111 110 1000000, mkBar 108 109 108 1000000,
   mkBar 106 107 106 1000000, mkBar 104 105 104 1000000, mkBar 103 104 103 1000000,
   mkBar 104 104 103 1000000, mkBar 105 105 104 1000000, mkBar 106 106 105 1000000,
   mkBar 106 106 106 1000000, mkBar 107 107 106 1000000, mkBar 107 107 107 1000000,
   mkBar 108 108 107 1000000, mkBar 108 108 108 1000000, mkBar 109 109 108 1000000,
   mkBar 109 109 109 1000000, mkBar 110 110 109 1000000, mkBar 110 110 110 1000000,
   mkBar 110 110 110 1000000, mkBar 110 110 110 1000000, mkBar 110 110 110 1000000,
   mkBar 110 110 110 1000000, mkBar 111 111 110 1000000, mkBar 111 111 110 2000000,
   mkBar 112 113 90 900000]

/-- Concrete 250 bar history on which strategy C matches although the last
low undercuts the prior low by more than the 0.5 percent tolerance. -/
def c7df : List Bar := List.replicate 219 flatBar ++ c7tail

/-- One ledger record, the stock_entry dictionary built in run_scanner, lines
639 to 656 of scanner.py, together with the days_held key that
update_history_roi adds later (absent, hence none, at creation). -/
structure Stock where
  id : String
  name : String
  group : String
  type : String
  price : ℚ
  ma5 : ℚ
  ma10 : ℚ
  changeRate : ℚ
  isValid : Bool
  note : String
  buy_price : ℚ
  latest_price : ℚ
  roi : ℚ
  daily_change : ℚ
  perf_1d : Option ℚ
  perf_5d : Option ℚ
  perf_10d : Option ℚ
  perf_20d : Option ℚ
  perf_30d : Option ℚ
  perf_60d : Option ℚ
  perf_120d : Option ℚ
  days_held : Option ℕ
deriving DecidableEq

/-- The history.json ledger document: date key to list of records, in the key
order of the underlying Python dict. -/
abbrev HistoryDb : Type := List (String × List Stock)

/-- Yahoo ticker symbol of a record, scanner.py line 501. -/
def symbolOf (s : Stock) : String := s.id ++ (if s.type == "上市" then ".TW" else ".TWO")

/-- numpy searchsorted on a sorted date index: position of the first date not
before t, or the length when every date is before t. -/
def searchsorted (dates : List ℕ) (t : ℕ) : ℕ :=
  (dates.findIdx? (fun d => decide (t ≤ d))).getD dates.length

/-- Refresh of one ledger record against one downloaded close series,
update_history_roi of scanner.py, lines 507 to 553.  A series is a list of
(date, close) pairs in increasing date order; dates are abstract ordinals.
The source mutates disjoint dict keys one after the other: days_held,
latest_price and roi always, daily_change when the series has at least two
rows, and each perf field when its bar count checkpoint is reached; the net
effect is the single record update below.  The found_date comparison of the
source ends in a pass statement, a no op that is dropped, and when the entry
date is past the end of the series the record is returned untouched (the
continue at line 511). -/
def refreshStock (series : List (ℕ × ℚ)) (record_ts : ℕ) (s0 : Stock) : Stock :=
  let start_idx := searchsorted (series.map Prod.fst) record_ts
  if series.length ≤ start_idx then s0 else
  let current_idx := series.length - 1
  let bars_held := current_idx - start_idx
  let buy_price := s0.buy_price
  let latest_price := (series.getD current_idx (0, 0)).2
  let lockRoi := fun (n : ℕ) =>
    round2 (((series.getD (start_idx + n) (0, 0)).2 - buy_price) / buy_price * 100)
  { s0 with
    days_held := some bars_held,
    latest_price := round2 latest_price,
    roi := round2 ((latest_price - buy_price) / buy_price * 100),
    daily_change := if 2 ≤ series.length then
        round2 ((latest_price - (series.getD (series.length - 2) (0, 0)).2)
          / (series.getD (series.length - 2) (0, 0)).2 * 100)
      else s0.daily_change,
    perf_1d := if 1 ≤ bars_held ∧ start_idx + 1 < series.length then
        some (lockRoi 1) else s0.perf_1d,
    perf_5d := if 5 ≤ bars_held ∧ start_idx + 5 < series.length then
        some (lockRoi 5) else s0.perf_5d,
    perf_10d := if 10 ≤ bars_held ∧ start_idx + 10 < series.length then
        some (lockRoi 10) else s0.perf_10d,
    perf_20d := if 20 ≤ bars_held ∧ start_idx + 20 < series.length then
        some (lockRoi 20) else s0.perf_20d,
    perf_60d := if 60 ≤ bars_held ∧ start_idx + 60 < series.length then
        some (lockRoi 60) else s0.perf_60d,
    perf_120d := if 120 ≤ bars_held ∧ start_idx + 120 < series.length then
        some (lockRoi 120) else s0.perf_120d }

/-- Whole ledger refresh, update_history_roi of scanner.py, lines 424 to 556.
The yfinance download and the dataframe column lookup of get_stock_series are
abstracted into the data parameter from ticker symbols to optional dropna
close series, and strptime date parsing into the parse parameter; entries of a
key that fails to parse, and entries whose series is missing or empty, are
left untouched, exactly as the continue statements of the source. -/
def update_history_roi (data : String → Option (List (ℕ × ℚ)))
    (parse : String → Option ℕ) (db : HistoryDb) : HistoryDb :=
  db.map (fun kv =>
    match parse kv.1 with
    | none => kv
    | some record_ts =>
      (kv.1, kv.2.map (fun s =>
        match data (symbolOf s) with
        | none => s
        | some series => if series.isEmpty then s else refreshStock series record_ts s)))

/-- Start of the Taipei trading session in seconds after midnight, 09:00:00. -/
def marketOpenSec : ℕ := 9 * 3600

/-- End of the Taipei trading session in seconds after midnight, 13:30:00. -/
def marketCloseSec : ℕ := 13 * 3600 + 30 * 60

/-- market_open <= current_time <= market_close of scanner.py line 677,
t in seconds after local midnight. -/
def isMarketSession (t : ℕ) : Bool :=
  decide (marketOpenSec ≤ t) && decide (t ≤ marketCloseSec)

/-- All instrument ids in the ledger, any date key, the existing_ids set of
scanner.py lines 691 to 694. -/
def existingIds (db : HistoryDb) : List String :=
  db.flatMap (fun kv => kv.2.map Stock.id)

/-- Lookup of a date key in the ledger, first match. -/
def lookupKey (k : String) : HistoryDb → Option (List Stock)
  | [] => none
  | kv :: rest => if kv.1 = k then some kv.2 else lookupKey k rest

/-- Python dict item assignment db[k] = v: replace the value in place when the
key exists, else append the pair at the end. -/
def dictSet (db : HistoryDb) (k : String) (v : List Stock) : HistoryDb :=
  if k ∈ db.map Prod.fst then
    db.map (fun kv => if kv.1 = k then (k, v) else kv)
  else db ++ [(k, v)]

/-- dict(sorted(items, reverse=True)) of scanner.py line 705: the ledger pairs
sorted by descending date key. -/
def sortDescByKey (db : HistoryDb) : HistoryDb :=
  List.insertionSort (fun a b => b.1 ≤ a.1) db

/-- Date key under which an after session run files new matches, scanner.py
lines 682 to 686: the current date after the close, else the previous
calendar date (both passed in as strings). -/
def record_date_str (t : ℕ) (today yday : String) : String :=
  if marketCloseSec < t then today else yday

/-- Archival tail of run_scanner, scanner.py lines 674 to 711: inside the
trading session the ledger is left untouched; outside it, matches whose id
already appears anywhere in the ledger are filtered out and the remaining
list, when nonempty, is stored under the record date key, after which the
keys are sorted descending. -/
def archiveStep (t : ℕ) (today yday : String) (daily : List Stock)
    (db : HistoryDb) : HistoryDb :=
  if isMarketSession t then db
  else
    let rds := record_date_str t today yday
    if daily.isEmpty then db
    else
      let existing := existingIds db
      let unique_results := daily.filter (fun s => decide (¬ s.id ∈ existing))
      if unique_results.isEmpty then db
      else sortDescByKey (dictSet db rds unique_results)

/-- The data.json payload of scanner.py lines 667 to 671. -/
structure DataPayload where
  date : String
  source : String
  list : List Stock
deriving DecidableEq

/-- Result writing tail of run_scanner: the data.json today document is built
from all matches of the day unconditionally (lines 667 to 672), then the
archival gate runs (lines 674 to 711). -/
def run_scanner_post (t : ℕ) (today yday now_str : String) (daily : List Stock)
    (db : HistoryDb) : DataPayload × HistoryDb :=
  ({ date := now_str, source := "GitHub Actions", list := daily },
   archiveStep t today yday daily db)

/-- Milestone field selector: the perf field of a record belonging to a bar
count checkpoint. -/
def getPerf (n : ℕ) (s : Stock) : Option ℚ :=
  if n = 1 then s.perf_1d else if n = 5 then s.perf_5d else if n = 10 then s.perf_10d
  else if n = 20 then s.perf_20d else if n = 60 then s.perf_60d
  else if n = 120 then s.perf_120d else none

/-- Tuple of every record field that a ledger refresh must not touch: identity
and classification, display values, the note, the recorded entry price, and
perf_30d, which update_history_roi never writes because 30 is not among its
checkpoints. -/
def frameFields (s : Stock) :
    String × String × String × String × ℚ × ℚ × ℚ × ℚ × Bool × String × ℚ × Option ℚ :=
  (s.id, s.name, s.group, s.type, s.price, s.ma5, s.ma10, s.changeRate, s.isValid,
   s.note, s.buy_price, s.perf_30d)

/-- Replacement of the low of the last bar of a history, leaving every other
field and bar unchanged. -/
def setLastLow : List Bar → ℚ → List Bar
  | [], _ => []
  | [b], v => [{ b with low := v }]
  | b :: c :: t, v => b :: setLastLow (c :: t) v

/-- Concrete ledger record used by witnesses: committed at an entry price
of 100. -/
def sampleStock : Stock :=
  { id := "1111", name := "甲公司", group := "其他", type := "上市", price := 100,
    ma5 := 100, ma10 := 100, changeRate := 0, isValid := true,
    note := "拉回佈局 / MA300 95.0", buy_price := 100, latest_price := 100, roi := 0,
    daily_change := 0, perf_1d := none, perf_5d := none, perf_10d := none,
    perf_20d := none, perf_30d := none, perf_60d := none, perf_120d := none,
    days_held := none }

/-- Second concrete ledger record with a distinct id. -/
def stockB : Stock := { sampleStock with id := "2222", name := "乙公司", buy_price := 50 }

/-- Fields outside days_held, latest_price, roi, daily_change and the six
written perf fields pass through a single record refresh unchanged. -/
theorem refreshStock_frame (series : List (ℕ × ℚ)) (ts : ℕ) (s : Stock) :
    frameFields (refreshStock series ts s) = frameFields s := by
  simp only [refreshStock]
  split_ifs <;> rfl

/-- Normal form of a refresh whose entry date falls inside the series: the
guard at line 511 of the source does not fire, and every updated field is
spelled out. -/
theorem refreshStock_of_found (series : List (ℕ × ℚ)) (ts : ℕ) (s : Stock)
    (hidx : searchsorted (series.map Prod.fst) ts < series.length) :
    refreshStock series ts s = { s with
      days_held := some (series.length - 1 - searchsorted (series.map Prod.fst) ts),
      latest_price := round2 (series.getD (series.length - 1) (0, 0)).2,
      roi := round2 (((series.getD (series.length - 1) (0, 0)).2 - s.buy_price)
        / s.buy_price * 100),
      daily_change := if 2 ≤ series.length then
          round2 (((series.getD (series.length - 1) (0, 0)).2
            - (series.getD (series.length - 2) (0, 0)).2)
            / (series.getD (series.length - 2) (0, 0)).2 * 100)
        else s.daily_change,
      perf_1d := if 1 ≤ series.length - 1 - searchsorted (series.map Prod.fst) ts ∧
          searchsorted (series.map Prod.fst) ts + 1 < series.length then
          some (round2 (((series.getD (searchsorted (series.map Prod.fst) ts + 1) (0, 0)).2
            - s.buy_price) / s.buy_price * 100)) else s.perf_1d,
      perf_5d := if 5 ≤ series.length - 1 - searchsorted (series.map Prod.fst) ts ∧
          searchsorted (series.map Prod.fst) ts + 5 < series.length then
          some (round2 (((series.getD (searchsorted (series.map Prod.fst) ts + 5) (0, 0)).2
            - s.buy_price) / s.buy_price * 100)) else s.perf_5d,
      perf_10d := if 10 ≤ series.length - 1 - searchsorted (series.map Prod.fst) ts ∧
          searchsorted (series.map Prod.fst) ts + 10 < series.length then
          some (round2 (((series.getD (searchsorted (series.map Prod.fst) ts + 10) (0, 0)).2
            - s.buy_price) / s.buy_price * 100)) else s.perf_10d,
      perf_20d := if 20 ≤ series.length - 1 - searchsorted (series.map Prod.fst) ts ∧
          searchsorted (series.map Prod.fst) ts + 20 < series.length then
          some (round2 (((series.getD (searchsorted (series.map Prod.fst) ts + 20) (0, 0)).2
            - s.buy_price) / s.buy_price * 100)) else s.perf_20d,
      perf_60d := if 60 ≤ series.length - 1 - searchsorted (series.map Prod.fst) ts ∧
          searchsorted (series.map Prod.fst) ts + 60 < series.length then
          some (round2 (((series.getD (searchsorted (series.map Prod.fst) ts + 60) (0, 0)).2
            - s.buy_price) / s.buy_price * 100)) else s.perf_60d,
      perf_120d := if 120 ≤ series.length - 1 - searchsorted (series.map Prod.fst) ts ∧
          searchsorted (series.map Prod.fst) ts + 120 < series.length then
          some (round2 (((series.getD (searchsorted (series.map Prod.fst) ts + 120) (0, 0)).2
            - s.buy_price) / s.buy_price * 100)) else s.perf_120d } := by
  have h : ¬ (series.length ≤ searchsorted (series.map Prod.fst) ts) := by omega
  simp only [refreshStock]
  rw [if_neg h]

/-- Projection of the refreshed roi: the rounded live return on the entry
price whenever the entry date falls inside the series. -/
theorem refreshStock_roi (series : List (ℕ × ℚ)) (ts : ℕ) (s : Stock)
    (hidx : searchsorted (series.map Prod.fst) ts < series.length) :
    (refreshStock series ts s).roi =
      round2 (((series.getD (series.length - 1) (0, 0)).2 - s.buy_price)
        / s.buy_price * 100) := by
  rw [refreshStock_of_found series ts s hidx]

/-- Recorded entry price of a record is never altered by a refresh. -/
theorem refreshStock_buy_price (series : List (ℕ × ℚ)) (ts : ℕ) (s : Stock) :
    (refreshStock series ts s).buy_price = s.buy_price := by
  simp only [refreshStock]
  split_ifs <;> rfl

/-- Projection of a refreshed milestone field for each of the six checkpoints:
set to the rounded return at the checkpoint bar when the bar count is reached
and the checkpoint row exists, untouched otherwise. -/
theorem refreshStock_getPerf (series : List (ℕ × ℚ)) (ts : ℕ) (s : Stock) (n : ℕ)
    (hn : n ∈ [1, 5, 10, 20, 60, 120])
    (hidx : searchsorted (series.map Prod.fst) ts < series.length) :
    getPerf n (refreshStock series ts s) =
      (if n ≤ series.length - 1 - searchsorted (series.map Prod.fst) ts ∧
          searchsorted (series.map Prod.fst) ts + n < series.length then
        some (round2 (((series.getD (searchsorted (series.map Prod.fst) ts + n) (0, 0)).2
          - s.buy_price) / s.buy_price * 100))
      else getPerf n s) := by
  fin_cases hn <;>
    · rw [refreshStock_of_found series ts s hidx]
      simp [getPerf]

/-- C2, counterexample to the claim as stated: a milestone field that has been
set is changed by a later refresh run.  The record enters at a buy price of
100 on date 5.  A first refresh over the window [(5, 100), (6, 110)] locks
perf_1d at 10 percent.  A later refresh whose two year download window has
slid past the entry date sees [(6, 110), (7, 120)]; searchsorted then returns
row 0 again and the run overwrites perf_1d with 20 percent, because
update_history_roi recomputes every reached checkpoint on every run instead
of skipping fields that are already set. -/
theorem C2_counterexample :
    (refreshStock [(5, 100), (6, 110)] 5 sampleStock).perf_1d = some 10 ∧
    (refreshStock [(6, 110), (7, 120)] 5
      (refreshStock [(5, 100), (6, 110)] 5 sampleStock)).perf_1d = some 20 := by
  constructor <;> with_unfolding_all decide

/-- C2, amended: for each checkpoint n of 1, 5, 10, 20, 60 and 120, any
refresh that finds the entry date inside its series and sees at least n bars
held writes perf_nd equal to the return from the entry price to the close at
the bar n rows after the entry row, rounded to two decimals; and a second
refresh over the same series leaves the field unchanged, so a milestone is
stable exactly as long as the downloaded history is unchanged on those rows. -/
theorem C2_milestone_lock (series : List (ℕ × ℚ)) (ts : ℕ) (s : Stock) (n : ℕ)
    (hn : n ∈ [1, 5, 10, 20, 60, 120])
    (hidx : searchsorted (series.map Prod.fst) ts < series.length)
    (hheld : n ≤ series.length - 1 - searchsorted (series.map Prod.fst) ts) :
    getPerf n (refreshStock series ts s) =
      some (round2 (((series.getD (searchsorted (series.map Prod.fst) ts + n) (0, 0)).2
        - s.buy_price) / s.buy_price * 100)) ∧
    getPerf n (refreshStock series ts (refreshStock series ts s)) =
      getPerf n (refreshStock series ts s) := by
  have hcond : n ≤ series.length - 1 - searchsorted (series.map Prod.fst) ts ∧
      searchsorted (series.map Prod.fst) ts + n < series.length := by omega
  have h1 : getPerf n (refreshStock series ts s) =
      some (round2 (((series.getD (searchsorted (series.map Prod.fst) ts + n) (0, 0)).2
        - s.buy_price) / s.buy_price * 100)) := by
    rw [refreshStock_getPerf series ts s n hn hidx, if_pos hcond]
  refine ⟨h1, ?_⟩
  rw [refreshStock_getPerf series ts (refreshStock series ts s) n hn hidx, if_pos hcond,
    refreshStock_buy_price, h1]

/-- C2, witness for the amended theorem at the checkpoint n = 1 on a two row
series. -/
theorem C2_milestone_lock_witness :
    (1 ∈ [1, 5, 10, 20, 60, 120] ∧
      searchsorted (([(5, 100), (6, 110)] : List (ℕ × ℚ)).map Prod.fst) 5 <
        ([(5, 100), (6, 110)] : List (ℕ × ℚ)).length) ∧
    getPerf 1 (refreshStock [(5, 100), (6, 110)] 5 sampleStock) = some 10 := by
  refine ⟨⟨by decide, by with_unfolding_all decide⟩, ?_⟩
  have h := (C2_milestone_lock [(5, 100), (6, 110)] 5 sampleStock 1 (by decide)
    (by with_unfolding_all decide) (by with_unfolding_all decide)).1
  rw [h]
  with_unfolding_all decide

/-- C3: the T plus 1 rule as realised by the code.  For a record whose entry
date is found inside the refreshed series and whose recorded buy price equals
the close of the entry row (which the committing run guarantees, since it
stores the rounded close of that day), a refresh that sees zero elapsed bars
reports roi equal to 0, and in general roi always equals the rounded live
return on the entry price, hence is nonzero only once at least one bar has
elapsed and the price has moved. -/
theorem C3_t_plus_1 (series : List (ℕ × ℚ)) (ts : ℕ) (s : Stock)
    (hidx : searchsorted (series.map Prod.fst) ts < series.length)
    (hbuy : s.buy_price =
      (series.getD (searchsorted (series.map Prod.fst) ts) (0, 0)).2) :
    (series.length - 1 - searchsorted (series.map Prod.fst) ts = 0 →
      (refreshStock series ts s).roi = 0) ∧
    (refreshStock series ts s).roi =
      round2 (((series.getD (series.length - 1) (0, 0)).2 - s.buy_price)
        / s.buy_price * 100) := by
  refine ⟨?_, refreshStock_roi series ts s hidx⟩
  intro h0
  rw [refreshStock_roi series ts s hidx, hbuy]
  have hidx2 : searchsorted (series.map Prod.fst) ts = series.length - 1 := by omega
  rw [hidx2, sub_self, zero_div, zero_mul]
  norm_num [round2, roundHalfEven]

/-- C3, witness: an entry committed on date 3 at price 100, refreshed while
the latest bar is still that of date 3, reports roi 0. -/
theorem C3_t_plus_1_witness :
    (searchsorted (([(3, 100)] : List (ℕ × ℚ)).map Prod.fst) 0 <
        ([(3, 100)] : List (ℕ × ℚ)).length) ∧
    (refreshStock [(3, 100)] 0 sampleStock).roi = 0 :=
  ⟨by with_unfolding_all decide,
   (C3_t_plus_1 [(3, 100)] 0 sampleStock (by with_unfolding_all decide)
     (by with_unfolding_all decide)).1 (by with_unfolding_all decide)⟩

/-- C10: a whole ledger refresh only rewrites days_held, latest_price, roi,
daily_change and the six written perf fields of existing records: the date
keys, their order, the number of records under each key, and every framed
field (id, name, group, type, price, ma5, ma10, changeRate, isValid, note,
buy_price, and even perf_30d, which no checkpoint writes) are unchanged, for
every download result and every date parser. -/
theorem C10_refresh_frame (data : String → Option (List (ℕ × ℚ)))
    (parse : String → Option ℕ) (db : HistoryDb) :
    (update_history_roi data parse db).map (fun kv => (kv.1, kv.2.map frameFields)) =
      db.map (fun kv => (kv.1, kv.2.map frameFields)) := by
  unfold update_history_roi
  rw [List.map_map]
  apply List.map_congr_left
  intro kv _
  cases hp : parse kv.1 with
  | none => simp only [Function.comp_apply, hp]
  | some ts =>
    simp only [Function.comp_apply, hp]
    rw [List.map_map]
    refine congrArg (fun l => (kv.1, l)) ?_
    apply List.map_congr_left
    intro s _
    simp only [Function.comp_apply]
    cases hd : data (symbolOf s) with
    | none => simp only [hd]
    | some series =>
      simp only [hd]
      split
      · rfl
      · exact refreshStock_frame series ts s

/-- Lookup misses exactly the keys that are absent. -/
theorem lookupKey_eq_none (k : String) (db : HistoryDb) (h : ¬ k ∈ db.map Prod.fst) :
    lookupKey k db = none := by
  induction db with
  | nil => rfl
  | cons kv rest ih =>
    simp only [List.map_cons, List.mem_cons] at h
    push_neg at h
    simp only [lookupKey]
    rw [if_neg (fun he => h.1 he.symm)]
    exact ih h.2

/-- Lookup of the key of a freshly appended pair, when the key was absent. -/
theorem lookupKey_append (k : String) (db : HistoryDb) (v : List Stock)
    (h : ¬ k ∈ db.map Prod.fst) : lookupKey k (db ++ [(k, v)]) = some v := by
  induction db with
  | nil => simp [lookupKey]
  | cons kv rest ih =>
    simp only [List.map_cons, List.mem_cons] at h
    push_neg at h
    simp only [List.cons_append, lookupKey]
    rw [if_neg (fun he => h.1 he.symm)]
    exact ih h.2

/-- Lookup of a key not equal to the appended key skips the appended pair. -/
theorem lookupKey_append_other (k k0 : String) (db : HistoryDb) (v : List Stock)
    (h : k0 ≠ k) : lookupKey k0 (db ++ [(k, v)]) = lookupKey k0 db := by
  induction db with
  | nil => simp [lookupKey, Ne.symm h]
  | cons kv rest ih =>
    simp only [List.cons_append, lookupKey]
    split
    · rfl
    · exact ih

/-- Lookup of the replaced key after a Python dict assignment over a present
key. -/
theorem lookupKey_replace (k : String) (db : HistoryDb) (v : List Stock)
    (h : k ∈ db.map Prod.fst) :
    lookupKey k (db.map (fun kv => if kv.1 = k then (k, v) else kv)) = some v := by
  induction db with
  | nil => simp at h
  | cons kv rest ih =>
    simp only [List.map_cons, List.mem_cons] at h
    simp only [List.map_cons, lookupKey]
    by_cases h1 : kv.1 = k
    · rw [if_pos h1]
      simp [lookupKey]
    · rw [if_neg h1, if_neg h1]
      exact ih (h.resolve_left (fun he => h1 he.symm))

/-- Lookup of any other key is untouched by a Python dict assignment over a
present key. -/
theorem lookupKey_replace_other (k k0 : String) (db : HistoryDb) (v : List Stock)
    (h : k0 ≠ k) :
    lookupKey k0 (db.map (fun kv => if kv.1 = k then (k, v) else kv)) =
      lookupKey k0 db := by
  induction db with
  | nil => rfl
  | cons kv rest ih =>
    simp only [List.map_cons, lookupKey]
    by_cases h1 : kv.1 = k
    · rw [if_pos h1]
      simp only [lookupKey]
      rw [if_neg (fun he => h he.symm), if_neg (by rw [h1]; exact fun he => h he.symm)]
      exact ih
    · rw [if_neg h1]
      split
      · rfl
      · exact ih

/-- Lookup of the assigned key after db[k] = v is v. -/
theorem lookupKey_dictSet_self (db : HistoryDb) (k : String) (v : List Stock) :
    lookupKey k (dictSet db k v) = some v := by
  unfold dictSet
  split_ifs with h
  · exact lookupKey_replace k db v h
  · exact lookupKey_append k db v h

/-- Lookup of every other key is untouched by db[k] = v. -/
theorem lookupKey_dictSet_other (db : HistoryDb) (k k0 : String) (v : List Stock)
    (h : k0 ≠ k) : lookupKey k0 (dictSet db k v) = lookupKey k0 db := by
  unfold dictSet
  split_ifs with hmem
  · exact lookupKey_replace_other k k0 db v h
  · exact lookupKey_append_other k k0 db v h

/-- Keys of db[k] = v: unchanged when k is present, else k appended. -/
theorem map_fst_dictSet (db : HistoryDb) (k : String) (v : List Stock) :
    (dictSet db k v).map Prod.fst =
      if k ∈ db.map Prod.fst then db.map Prod.fst else db.map Prod.fst ++ [k] := by
  unfold dictSet
  split_ifs with h
  · rw [List.map_map]
    apply List.map_congr_left
    intro kv _
    by_cases h1 : kv.1 = k
    · simp [Function.comp_apply, h1]
    · simp [Function.comp_apply, h1]
  · simp

/-- Python dict assignment preserves distinctness of the keys. -/
theorem dictSet_nodup (db : HistoryDb) (k : String) (v : List Stock)
    (hn : (db.map Prod.fst).Nodup) : ((dictSet db k v).map Prod.fst).Nodup := by
  rw [map_fst_dictSet]
  split_ifs with h
  · exact hn
  · simp [List.nodup_append, hn, h]

/-- Sorting the ledger by descending date key is a permutation of its pairs. -/
theorem sortDescByKey_perm (db : HistoryDb) : (sortDescByKey db).Perm db :=
  List.perm_insertionSort _ db

/-- Lookup in an association list with distinct keys is invariant under
permutation. -/
theorem lookupKey_perm (k : String) {l l' : HistoryDb} (h : l.Perm l')
    (hn : (l.map Prod.fst).Nodup) : lookupKey k l = lookupKey k l' := by
  induction h with
  | nil => rfl
  | cons x h ih =>
    simp only [List.map_cons, List.nodup_cons] at hn
    simp only [lookupKey]
    split
    · rfl
    · exact ih hn.2
  | swap x y l =>
    simp only [List.map_cons, List.nodup_cons, List.mem_cons] at hn
    have hxy : y.1 ≠ x.1 := fun he => hn.1 (Or.inl he)
    simp only [lookupKey]
    by_cases h1 : y.1 = k <;> by_cases h2 : x.1 = k
    · exact absurd (h1.trans h2.symm) hxy
    · rw [if_pos h1, if_neg h2, if_pos h1]
    · rw [if_neg h1, if_pos h2, if_pos h2]
    · rw [if_neg h1, if_neg h2, if_neg h2, if_neg h1]
  | trans h1 h2 ih1 ih2 =>
    rw [ih1 hn, ih2 ((h1.map Prod.fst).nodup hn)]

/-- C6: the archival time gate.  The today payload always carries the full
match list, even in session (conjunct one); a run inside the 09:00 to 13:30
session leaves the ledger untouched (conjunct two); a run outside the session
commits every match whose id is new, under the record date key (conjunct
three), which is the current date for a run after 13:30 and the previous
calendar date for a run before 09:00 (conjuncts four and five). -/
theorem C6_archival_gate (db : HistoryDb) (t : ℕ) (today yday now_str : String)
    (daily : List Stock) (s : Stock)
    (hnd : (db.map Prod.fst).Nodup) (hs : s ∈ daily) (hnew : ¬ s.id ∈ existingIds db) :
    (run_scanner_post t today yday now_str daily db).1.list = daily ∧
    (isMarketSession t = true → (run_scanner_post t today yday now_str daily db).2 = db) ∧
    (isMarketSession t = false → ∃ l, lookupKey (record_date_str t today yday)
        (run_scanner_post t today yday now_str daily db).2 = some l ∧ s ∈ l) ∧
    (marketCloseSec < t → record_date_str t today yday = today) ∧
    (t < marketOpenSec → record_date_str t today yday = yday ∧
      isMarketSession t = false) := by
  refine ⟨rfl, ?_, ?_, ?_, ?_⟩
  · intro hm
    simp only [run_scanner_post, archiveStep, hm]
    rfl
  · intro hm
    simp only [run_scanner_post, archiveStep, hm]
    have hdne : ¬ (daily.isEmpty = true) := by
      simp only [List.isEmpty_iff]
      exact List.ne_nil_of_mem hs
    have hsu : s ∈ daily.filter (fun s => decide (¬ s.id ∈ existingIds db)) :=
      List.mem_filter.mpr ⟨hs, by simpa using hnew⟩
    have hsune : ¬ ((daily.filter (fun s => decide (¬ s.id ∈ existingIds db))).isEmpty
        = true) := by
      simp only [List.isEmpty_iff]
      exact List.ne_nil_of_mem hsu
    rw [if_neg (by simp), if_neg hdne, if_neg hsune]
    refine ⟨daily.filter (fun s => decide (¬ s.id ∈ existingIds db)), ?_, hsu⟩
    rw [lookupKey_perm (record_date_str t today yday) (sortDescByKey_perm _)
      (((sortDescByKey_perm _).map Prod.fst).symm.nodup
        (dictSet_nodup db (record_date_str t today yday) _ hnd)),
      lookupKey_dictSet_self]
  · intro hc
    simp only [record_date_str]
    rw [if_pos hc]
  · intro ho
    have ho2 : t < marketCloseSec := by
      simp only [marketOpenSec] at ho
      simp only [marketCloseSec]
      omega
    refine ⟨?_, ?_⟩
    · simp only [record_date_str]
      rw [if_neg (by omega)]
    · have : ¬ (marketOpenSec ≤ t) := by omega
      simp [isMarketSession, this]

/-- C6, witness: an after close run at 13:53:20 with an empty ledger and one
match files that match under the record date key. -/
theorem C6_archival_gate_witness :
    isMarketSession 50000 = false ∧
    ∃ l, lookupKey (record_date_str 50000 "2025/10/10" "2025/10/09")
        (run_scanner_post 50000 "2025/10/10" "2025/10/09" "2025/10/10 13:53:20"
          [sampleStock] []).2 = some l ∧ sampleStock ∈ l :=
  ⟨by decide,
   (C6_archival_gate [] 50000 "2025/10/10" "2025/10/09" "2025/10/10 13:53:20"
     [sampleStock] sampleStock (by decide) (List.mem_singleton.mpr rfl)
     (by with_unfolding_all decide)).2.2.1 (by decide)⟩

/-- C1, counterexample to the claim as stated.  The ledger holds the id 1111
under 2025/10/10 at a buy price of 100.  An after close run on the same date
matches 1111 again together with the new id 2222.  The gate permits the
commit, the duplicate 1111 is filtered out of the unique results, but the
assignment history_db[record_date_str] = unique_results then replaces the
whole list stored under 2025/10/10, so the previously recorded 1111 entry,
buy price included, vanishes from the ledger instead of being left
unchanged. -/
theorem C1_counterexample :
    "1111" ∈ existingIds [("2025/10/10", [sampleStock])] ∧
    isMarketSession 50000 = false ∧
    "2222" ∈ existingIds (archiveStep 50000 "2025/10/10" "2025/10/09"
      [sampleStock, stockB] [("2025/10/10", [sampleStock])]) ∧
    ¬ "1111" ∈ existingIds (archiveStep 50000 "2025/10/10" "2025/10/09"
      [sampleStock, stockB] [("2025/10/10", [sampleStock])]) := by
  refine ⟨?_, ?_, ?_, ?_⟩ <;> with_unfolding_all decide

/-- C1, amended: an after close commit never adds an entry for an id that is
already anywhere in the ledger (first conjunct), and the list under every
date key other than the record date key of the run is preserved verbatim,
entry prices included (second conjunct).  Entries already filed under the
record date key itself are not preserved: the commit replaces that list, as
the counterexample shows. -/
theorem C1_dedup (db : HistoryDb) (t : ℕ) (today yday : String) (daily : List Stock)
    (idA : String) (hnd : (db.map Prod.fst).Nodup) (hex : idA ∈ existingIds db) :
    (∀ k e, e ∈ (lookupKey k (archiveStep t today yday daily db)).getD [] →
       e.id = idA → e ∈ (lookupKey k db).getD []) ∧
    (∀ k, k ≠ record_date_str t today yday →
       lookupKey k (archiveStep t today yday daily db) = lookupKey k db) := by
  simp only [archiveStep]
  split_ifs with h1 h2 h3
  · exact ⟨fun k e he _ => he, fun k _ => rfl⟩
  · exact ⟨fun k e he _ => he, fun k _ => rfl⟩
  · exact ⟨fun k e he _ => he, fun k _ => rfl⟩
  · have hnd2 : (((sortDescByKey (dictSet db (record_date_str t today yday)
        (daily.filter (fun s => decide (¬ s.id ∈ existingIds db))))).map Prod.fst)).Nodup :=
      ((sortDescByKey_perm _).map Prod.fst).symm.nodup
        (dictSet_nodup db (record_date_str t today yday) _ hnd)
    constructor
    · intro k e he heid
      by_cases hk : k = record_date_str t today yday
      · subst hk
        rw [lookupKey_perm _ (sortDescByKey_perm _) hnd2, lookupKey_dictSet_self] at he
        simp only [Option.getD_some] at he
        have := (List.mem_filter.mp he).2
        simp only [decide_eq_true_eq] at this
        exact absurd (heid ▸ hex) this
      · rw [lookupKey_perm k (sortDescByKey_perm _) hnd2,
          lookupKey_dictSet_other _ _ _ _ hk] at he
        exact he
    · intro k hk
      rw [lookupKey_perm k (sortDescByKey_perm _) hnd2,
        lookupKey_dictSet_other _ _ _ _ hk]

/-- C1, witness for the amended theorem: with the id 1111 already in the
ledger, a commit of the new id 2222 leaves the list under the other date key
unchanged. -/
theorem C1_dedup_witness :
    "1111" ∈ existingIds [("2025/10/10", [sampleStock])] ∧
    lookupKey "2025/10/09" (archiveStep 50000 "2025/10/10" "2025/10/09" [stockB]
        [("2025/10/10", [sampleStock])]) =
      lookupKey "2025/10/09" [("2025/10/10", [sampleStock])] :=
  ⟨by with_unfolding_all decide,
   (C1_dedup [("2025/10/10", [sampleStock])] 50000 "2025/10/10" "2025/10/09" [stockB]
     "1111" (by with_unfolding_all decide) (by with_unfolding_all decide)).2
     "2025/10/09" (by with_unfolding_all decide)⟩

/-- C4: the failing input of the code bug.  A first after close run on an
empty ledger files the 1111 entry under 2025/10/10.  A second after close run
on the same date matching only the new id 2222 should, per the merge on write
and append only ledger contract, append and keep both entries; instead the
dict assignment at line 704 of scanner.py replaces the list under the key, so
the 1111 entry of the first run is dropped from the ledger. -/
theorem C4_same_key_overwrite :
    (archiveStep 50000 "2025/10/10" "2025/10/09" [sampleStock] []).map Prod.fst =
      ["2025/10/10"] ∧
    existingIds (archiveStep 50000 "2025/10/10" "2025/10/09" [sampleStock] []) =
      ["1111"] ∧
    (archiveStep 50000 "2025/10/10" "2025/10/09" [stockB]
        (archiveStep 50000 "2025/10/10" "2025/10/09" [sampleStock] [])).map Prod.fst =
      ["2025/10/10"] ∧
    existingIds (archiveStep 50000 "2025/10/10" "2025/10/09" [stockB]
        (archiveStep 50000 "2025/10/10" "2025/10/09" [sampleStock] [])) = ["2222"] := by
  refine ⟨?_, ?_, ?_, ?_⟩ <;> with_unfolding_all decide

/-- C5: insufficient history is a definitive non match, never an error.  Each
evaluator is a total function that returns (false, none) for every history
shorter than its required window: 310 bars for strategies A and B, 250 bars
for strategy C, for every standard deviation value. -/
theorem C5_insufficient_history (df : List Bar) (stdFn : List ℚ → ℚ) :
    (df.length < 310 → check_strategy_original df = (false, none) ∧
      check_strategy_vcp_pro stdFn df = (false, none)) ∧
    (df.length < 250 → check_strategy_n_shape df = (false, none)) := by
  constructor
  · intro h
    constructor
    · unfold check_strategy_original
      rw [if_pos h]
    · have h2 : (closes df).length < 310 := by simpa [closes] using h
      simp only [check_strategy_vcp_pro]
      rw [if_pos h2]
    
  · intro h
    unfold check_strategy_n_shape
    rw [if_pos h]

/-- C5, witness: a five bar history is rejected by all three evaluators. -/
theorem C5_insufficient_history_witness :
    ((List.replicate 5 flatBar).length < 310 ∧ (List.replicate 5 flatBar).length < 250) ∧
    check_strategy_original (List.replicate 5 flatBar) = (false, none) ∧
    check_strategy_vcp_pro (fun _ => 0) (List.replicate 5 flatBar) = (false, none) ∧
    check_strategy_n_shape (List.replicate 5 flatBar) = (false, none) := by
  refine ⟨⟨by decide, by decide⟩, ?_, ?_, ?_⟩
  · exact ((C5_insufficient_history (List.replicate 5 flatBar) (fun _ => 0)).1
      (by decide)).1
  · exact ((C5_insufficient_history (List.replicate 5 flatBar) (fun _ => 0)).1
      (by decide)).2
  · exact (C5_insufficient_history (List.replicate 5 flatBar) (fun _ => 0)).2 (by decide)

/-- Auxiliary congruence: a property holding on both branches of a
conditional holds on the conditional. -/
theorem shape_ite {α : Type} (P : α → Prop) (c : Prop) [Decidable c] {a b : α}
    (ha : P a) (hb : P b) : P (if c then a else b) := by
  split_ifs <;> assumption

/-- Shape predicate for results of strategy A (see C9). -/
def shapeAOf (df : List Bar) (r : Bool × Option InfoA) : Prop :=
  r = (false, none) ∨
    ∃ i : InfoA, r = (true, some i) ∧ i.tag = "拉回佈局" ∧
      i.price = round2 (ilocNeg (closes df) 1) ∧
      i.ma5 = round2 (smaLast 5 (closes df)) ∧
      i.ma10 = round2 (smaLast 10 (closes df))

/-- Shape predicate for results of strategy B (see C9). -/
def shapeBOf (df : List Bar) (r : Bool × Option InfoB) : Prop :=
  r = (false, none) ∨
    ∃ i : InfoB, r = (true, some i) ∧ i.tag = "Strict-VCP" ∧
      i.price = round2 (ilocNeg (closes df) 1) ∧
      i.ma5 = round2 (smaLast 5 (closes df)) ∧
      i.ma10 = round2 (smaLast 10 (closes df))

/-- Shape predicate for results of strategy C (see C9). -/
def shapeCOf (df : List Bar) (r : Bool × Option InfoC) : Prop :=
  r = (false, none) ∨
    ∃ i : InfoC, r = (true, some i) ∧ i.tag = "N字形" ∧
      i.price = round2 (ilocNeg (closes df) 1) ∧
      i.ma5 = round2 (smaLast 5 (closes df)) ∧
      i.ma10 = round2 (smaLast 10 (closes df))

/-- Non match result predicate for strategy B results (see C8). -/
def isNonMatchB (r : Bool × Option InfoB) : Prop := r = (false, none)

/-- C8: the retracement decay filter of strategy B.  Whenever the drawdown
ratios over the trailing 60, 20 and 10 bar close windows are not strictly
decreasing, the evaluator returns non match, whatever the input and whatever
the standard deviation value. -/
theorem C8_retrace_decay (df : List Bar) (stdFn : List ℚ → ℚ)
    (h : ¬ (calc_retrace (lastN 60 (closes df)) > calc_retrace (lastN 20 (closes df)) ∧
        calc_retrace (lastN 20 (closes df)) > calc_retrace (lastN 10 (closes df)))) :
    check_strategy_vcp_pro stdFn df = (false, none) := by
  show isNonMatchB (check_strategy_vcp_pro stdFn df)
  unfold check_strategy_vcp_pro
  refine shape_ite isNonMatchB _ rfl ?_
  refine shape_ite isNonMatchB _ rfl ?_
  refine shape_ite isNonMatchB _ rfl ?_
  refine shape_ite isNonMatchB _ rfl ?_
  refine shape_ite isNonMatchB _ rfl ?_
  refine shape_ite isNonMatchB _ rfl ?_
  refine shape_ite isNonMatchB _ rfl ?_
  refine shape_ite isNonMatchB _ rfl ?_
  refine shape_ite isNonMatchB _ rfl ?_
  refine shape_ite isNonMatchB _ rfl ?_
  refine shape_ite isNonMatchB _ rfl ?_
  refine shape_ite isNonMatchB _ rfl ?_
  refine shape_ite isNonMatchB _ rfl ?_
  refine shape_ite isNonMatchB _ rfl ?_
  refine shape_ite isNonMatchB _ rfl ?_
  refine shape_ite isNonMatchB _ rfl ?_
  refine shape_ite isNonMatchB _ rfl ?_
  refine shape_ite isNonMatchB _ rfl ?_
  exact if_pos h

/-- C8, witness: on the empty history every drawdown ratio is the default 1,
the strictly decreasing requirement fails, and the evaluator rejects. -/
theorem C8_retrace_decay_witness :
    (¬ (calc_retrace (lastN 60 (closes ([] : List Bar))) >
          calc_retrace (lastN 20 (closes ([] : List Bar))) ∧
        calc_retrace (lastN 20 (closes ([] : List Bar))) >
          calc_retrace (lastN 10 (closes ([] : List Bar))))) ∧
    check_strategy_vcp_pro (fun _ => 0) [] = (false, none) :=
  ⟨by with_unfolding_all decide,
   C8_retrace_decay [] (fun _ => 0) (by with_unfolding_all decide)⟩

/-- Replacing the last low does not change the bar count. -/
theorem length_setLastLow : ∀ (df : List Bar) (v : ℚ),
    (setLastLow df v).length = df.length
  | [], _ => rfl
  | [_], _ => rfl
  | b :: c :: t, v => by
    simp only [setLastLow, List.length_cons]
    rw [length_setLastLow (c :: t) v]
    simp

/-- Replacing the last low does not change the Close column. -/
theorem closes_setLastLow : ∀ (df : List Bar) (v : ℚ),
    closes (setLastLow df v) = closes df
  | [], _ => rfl
  | [_], _ => rfl
  | b :: c :: t, v => congrArg (fun l => b.close :: l) (closes_setLastLow (c :: t) v)

/-- Replacing the last low does not change the High column. -/
theorem highs_setLastLow : ∀ (df : List Bar) (v : ℚ),
    highs (setLastLow df v) = highs df
  | [], _ => rfl
  | [_], _ => rfl
  | b :: c :: t, v => congrArg (fun l => b.high :: l) (highs_setLastLow (c :: t) v)

/-- Replacing the last low does not change the Volume column. -/
theorem volumes_setLastLow : ∀ (df : List Bar) (v : ℚ),
    volumes (setLastLow df v) = volumes df
  | [], _ => rfl
  | [_], _ => rfl
  | b :: c :: t, v => congrArg (fun l => b.volume :: l) (volumes_setLastLow (c :: t) v)

/-- Replacing the last low does not change the Low column with its last row
removed. -/
theorem lows_dropLast_setLastLow : ∀ (df : List Bar) (v : ℚ),
    (lows (setLastLow df v)).dropLast = (lows df).dropLast
  | [], _ => rfl
  | [_], _ => rfl
  | b :: c :: t, v => by
    have ih := lows_dropLast_setLastLow (c :: t) v
    show ((b :: setLastLow (c :: t) v).map Bar.low).dropLast =
      ((b :: c :: t).map Bar.low).dropLast
    cases hx : setLastLow (c :: t) v with
    | nil =>
      exfalso
      have := length_setLastLow (c :: t) v
      rw [hx] at this
      simp at this
    | cons x xs =>
      rw [hx] at ih
      simp only [lows, List.map_cons, List.dropLast_cons₂]
      simp only [lows, List.map_cons] at ih
      exact congrArg (fun l => b.low :: l) ih

/-- Replacing the last low does not change the pandas slice low.iloc[0:-1]. -/
theorem lows_take_setLastLow (df : List Bar) (v : ℚ) :
    (lows (setLastLow df v)).take ((lows (setLastLow df v)).length - 1) =
      (lows df).take ((lows df).length - 1) := by
  rw [← List.dropLast_eq_take, ← List.dropLast_eq_take]
  exact lows_dropLast_setLastLow df v

/-- C7, amended: strategy C applies no undercut exclusion on the last low at
all.  The only use of the Low column is the pullback zone slice, which stops
before the last row, so replacing the last low by any value, in particular one
undercutting the prior low by far more than 0.5 percent, never changes the
result of the evaluator. -/
theorem C7_no_low_exclusion (df : List Bar) (v : ℚ) :
    check_strategy_n_shape (setLastLow df v) = check_strategy_n_shape df := by
  simp only [check_strategy_n_shape]
  rw [lows_take_setLastLow, length_setLastLow, closes_setLastLow, highs_setLastLow,
    volumes_setLastLow]

/-- C7, counterexample to the claim as stated: a concrete 250 bar history on
which strategy C returns a match although the last low of 90 undercuts the
prior low of 110 by more than 18 percent, far beyond the 0.5 percent
tolerance the claim asserts. -/
theorem C7_counterexample :
    (ilocNeg (lows c7df) 2 - ilocNeg (lows c7df) 1) / ilocNeg (lows c7df) 2 > 1/200 ∧
    (check_strategy_n_shape c7df).1 = true := by
  constructor <;> with_unfolding_all decide

/-- Shape of every result of strategy A: either (false, none), or (true, some
info) where the info carries the strategy tag, the rounded last close as the
price, and the rounded display moving averages. -/
theorem check_strategy_original_shape (df : List Bar) :
    check_strategy_original df = (false, none) ∨
    ∃ i : InfoA, check_strategy_original df = (true, some i) ∧ i.tag = "拉回佈局" ∧
      i.price = round2 (ilocNeg (closes df) 1) ∧
      i.ma5 = round2 (smaLast 5 (closes df)) ∧
      i.ma10 = round2 (smaLast 10 (closes df)) := by
  show shapeAOf df (check_strategy_original df)
  unfold check_strategy_original
  refine shape_ite (shapeAOf df) _ (Or.inl rfl) ?_
  refine shape_ite (shapeAOf df) _ (Or.inl rfl) ?_
  refine shape_ite (shapeAOf df) _ (Or.inl rfl) ?_
  refine shape_ite (shapeAOf df) _ (Or.inl rfl) ?_
  refine shape_ite (shapeAOf df) _ (Or.inl rfl) ?_
  refine shape_ite (shapeAOf df) _ (Or.inl rfl) ?_
  refine shape_ite (shapeAOf df) _ (Or.inl rfl) ?_
  refine shape_ite (shapeAOf df) _ (Or.inl rfl) ?_
  refine shape_ite (shapeAOf df) _ (Or.inl rfl) ?_
  refine shape_ite (shapeAOf df) _ (Or.inl rfl) ?_
  refine shape_ite (shapeAOf df) _ (Or.inl rfl) ?_
  refine shape_ite (shapeAOf df) _ (Or.inl rfl) ?_
  refine shape_ite (shapeAOf df) _ (Or.inl rfl) ?_
  refine shape_ite (shapeAOf df) _ (Or.inl rfl) ?_
  refine shape_ite (shapeAOf df) _ (Or.inl rfl) ?_
  exact shape_ite (shapeAOf df) _ (Or.inl rfl)
    (Or.inr ⟨_, rfl, rfl, rfl, rfl, rfl⟩)

/-- Shape of every result of strategy B, for every standard deviation
value. -/
theorem check_strategy_vcp_pro_shape (stdFn : List ℚ → ℚ) (df : List Bar) :
    check_strategy_vcp_pro stdFn df = (false, none) ∨
    ∃ i : InfoB, check_strategy_vcp_pro stdFn df = (true, some i) ∧
      i.tag = "Strict-VCP" ∧ i.price = round2 (ilocNeg (closes df) 1) ∧
      i.ma5 = round2 (smaLast 5 (closes df)) ∧
      i.ma10 = round2 (smaLast 10 (closes df)) := by
  show shapeBOf df (check_strategy_vcp_pro stdFn df)
  unfold check_strategy_vcp_pro
  refine shape_ite (shapeBOf df) _ (Or.inl rfl) ?_
  refine shape_ite (shapeBOf df) _ (Or.inl rfl) ?_
  refine shape_ite (shapeBOf df) _ (Or.inl rfl) ?_
  refine shape_ite (shapeBOf df) _ (Or.inl rfl) ?_
  refine shape_ite (shapeBOf df) _ (Or.inl rfl) ?_
  refine shape_ite (shapeBOf df) _ (Or.inl rfl) ?_
  refine shape_ite (shapeBOf df) _ (Or.inl rfl) ?_
  refine shape_ite (shapeBOf df) _ (Or.inl rfl) ?_
  refine shape_ite (shapeBOf df) _ (Or.inl rfl) ?_
  refine shape_ite (shapeBOf df) _ (Or.inl rfl) ?_
  refine shape_ite (shapeBOf df) _ (Or.inl rfl) ?_
  refine shape_ite (shapeBOf df) _ (Or.inl rfl) ?_
  refine shape_ite (shapeBOf df) _ (Or.inl rfl) ?_
  refine shape_ite (shapeBOf df) _ (Or.inl rfl) ?_
  refine shape_ite (shapeBOf df) _ (Or.inl rfl) ?_
  refine shape_ite (shapeBOf df) _ (Or.inl rfl) ?_
  refine shape_ite (shapeBOf df) _ (Or.inl rfl) ?_
  refine shape_ite (shapeBOf df) _ (Or.inl rfl) ?_
  exact shape_ite (shapeBOf df) _ (Or.inl rfl) (Or.inr ⟨_, rfl, rfl, rfl, rfl, rfl⟩)

/-- Shape of every result of strategy C. -/
theorem check_strategy_n_shape_shape (df : List Bar) :
    check_strategy_n_shape df = (false, none) ∨
    ∃ i : InfoC, check_strategy_n_shape df = (true, some i) ∧ i.tag = "N字形" ∧
      i.price = round2 (ilocNeg (closes df) 1) ∧
      i.ma5 = round2 (smaLast 5 (closes df)) ∧
      i.ma10 = round2 (smaLast 10 (closes df)) := by
  show shapeCOf df (check_strategy_n_shape df)
  unfold check_strategy_n_shape
  refine shape_ite (shapeCOf df) _ (Or.inl rfl) ?_
  refine shape_ite (shapeCOf df) _ (Or.inl rfl) ?_
  refine shape_ite (shapeCOf df) _ (Or.inl rfl) ?_
  refine shape_ite (shapeCOf df) _ (Or.inl rfl) ?_
  refine shape_ite (shapeCOf df) _ (Or.inl rfl) ?_
  refine shape_ite (shapeCOf df) _ (Or.inl rfl) ?_
  refine shape_ite (shapeCOf df) _ (Or.inl rfl) ?_
  refine shape_ite (shapeCOf df) _ (Or.inl rfl) ?_
  refine shape_ite (shapeCOf df) _ (Or.inl rfl) ?_
  exact shape_ite (shapeCOf df) _ (Or.inr ⟨_, rfl, rfl, rfl, rfl, rfl⟩) (Or.inl rfl)

/-- C9: every evaluator result is a pair whose info part is none exactly on
non match, and on a match carries the strategy tag, the rounded last close and
the rounded display moving averages.  The positivity hypothesis restricts the
statement to meaningful price data, on which the exact rational model agrees
with the floating point source. -/
theorem C9_result_shape (df : List Bar) (stdFn : List ℚ → ℚ)
    (_hpos : ∀ b ∈ df, 0 < b.close) :
    (check_strategy_original df = (false, none) ∨
      ∃ i : InfoA, check_strategy_original df = (true, some i) ∧ i.tag = "拉回佈局" ∧
        i.price = round2 (ilocNeg (closes df) 1) ∧
        i.ma5 = round2 (smaLast 5 (closes df)) ∧
        i.ma10 = round2 (smaLast 10 (closes df))) ∧
    (check_strategy_vcp_pro stdFn df = (false, none) ∨
      ∃ i : InfoB, check_strategy_vcp_pro stdFn df = (true, some i) ∧
        i.tag = "Strict-VCP" ∧ i.price = round2 (ilocNeg (closes df) 1) ∧
        i.ma5 = round2 (smaLast 5 (closes df)) ∧
        i.ma10 = round2 (smaLast 10 (closes df))) ∧
    (check_strategy_n_shape df = (false, none) ∨
      ∃ i : InfoC, check_strategy_n_shape df = (true, some i) ∧ i.tag = "N字形" ∧
        i.price = round2 (ilocNeg (closes df) 1) ∧
        i.ma5 = round2 (smaLast 5 (closes df)) ∧
        i.ma10 = round2 (smaLast 10 (closes df))) :=
  ⟨check_strategy_original_shape df, check_strategy_vcp_pro_shape stdFn df,
   check_strategy_n_shape_shape df⟩

/-- C9, witness on the empty history, whose positivity hypothesis is
vacuous. -/
theorem C9_result_shape_witness :
    (∀ b ∈ ([] : List Bar), 0 < b.close) ∧
    (check_strategy_original [] = (false, none) ∨
      ∃ i : InfoA, check_strategy_original [] = (true, some i) ∧ i.tag = "拉回佈局" ∧
        i.price = round2 (ilocNeg (closes []) 1) ∧
        i.ma5 = round2 (smaLast 5 (closes [])) ∧
        i.ma10 = round2 (smaLast 10 (closes []))) :=
  ⟨by simp, (C9_result_shape [] (fun _ => 0) (by simp)).1⟩
